import Mathlib

/-!
Verification development for the lsp-mcp-server bridge.

The repository is a TypeScript MCP↔LSP bridge.  The definitions below are a
shallow embedding of its pure logic and of its stateful client, translated
from `src/src/lspClient.ts` and the main server file (`src/unnamed/part_001`):

* JavaScript strings are modelled as Lean `String`/`List Char`;
* JavaScript numbers that can be `NaN` are modelled by `JsNum`;
* the Node `path.resolve` function (POSIX) is modelled by `pathResolve`;
* `String.prototype.indexOf(q, from)` is modelled by `indexOfFrom`;
* the LSP subprocess and the filesystem are modelled as oracles, and the
  stateful `LspClient` as explicit state passing that also emits the list of
  protocol messages it sends.
-/

namespace LspMcp

/-- LSP `Position`: zero-based line and character. -/
structure Pos where
  line : Nat
  character : Nat
deriving DecidableEq, Repr

/-- LSP `Range`.  The source field `end` is a Lean keyword, embedded as `stop`. -/
structure Rng where
  start : Pos
  stop : Pos
deriving DecidableEq, Repr

/-- LSP `Location`: a document URI plus a range. -/
structure Loc where
  uri : String
  range : Rng
deriving DecidableEq, Repr

/-- Line-major ordering on positions (the document order used by the spec). -/
def posLe (a b : Pos) : Bool :=
  a.line < b.line || (a.line == b.line && a.character ≤ b.character)

/-! ### Model of Node `path.resolve` (POSIX)

`path.resolve(cwd, p)`: if `p` is absolute it is normalized on its own,
otherwise it is joined to `cwd` and normalized.  Normalization removes empty
segments and `.`, and resolves `..` against the accumulated prefix (never
above the root).  The bridge only ever resolves against an absolute project
root (`process.cwd()`), which this model takes as the `cwd` argument. -/

/-- Split a character list at every occurrence of `sep` (semantics of JS
`String.prototype.split` with a single-character separator). -/
def splitOnCharL (sep : Char) : List Char → List (List Char)
  | [] => [[]]
  | c :: cs =>
    match splitOnCharL sep cs with
    | [] => [[c]]
    | l :: ls => if c = sep then [] :: l :: ls else (c :: l) :: ls

/-- Fold one path segment into the normalized accumulator. -/
def normStep (acc : List (List Char)) (seg : List Char) : List (List Char) :=
  if seg = [] ∨ seg = ['.'] then acc
  else if seg = ['.', '.'] then acc.dropLast
  else acc ++ [seg]

/-- Normalize a list of path segments. -/
def normalizeSegs (segs : List (List Char)) : List (List Char) :=
  segs.foldl normStep []

/-- Interleave `/` between path segments. -/
def joinSegs : List (List Char) → List Char
  | [] => []
  | [s] => s
  | s :: rest => s ++ '/' :: joinSegs rest

/-- Model of Node `path.resolve(cwd, p)` for an absolute `cwd`, on `List Char`. -/
def pathResolveL (cwd p : List Char) : List Char :=
  let segs :=
    if p.head? = some '/' then splitOnCharL '/' p
    else splitOnCharL '/' cwd ++ splitOnCharL '/' p
  '/' :: joinSegs (normalizeSegs segs)

/-- Model of Node `path.resolve(cwd, p)` for an absolute `cwd`. -/
def pathResolve (cwd p : String) : String :=
  ⟨pathResolveL cwd.data p.data⟩

/-! ### Model of JavaScript `String.prototype.indexOf`

`line.indexOf(query, from)` returns the least index `p ≥ min from line.length`
at which `query` occurs, or `-1` (here `none`).  Occurrence at `p` means the
next `query.length` characters of `line` starting at `p` are exactly `query`. -/

/-- `query` occurs in `s` at position `p`. -/
def occursAt (s q : List Char) (p : Nat) : Bool :=
  (s.drop p).take q.length == q

/-- Model of JS `s.indexOf(q, fromIdx)` (`none` stands for `-1`). -/
def indexOfFrom (s q : List Char) (fromIdx : Nat) : Option Nat :=
  ((List.range (s.length + 1)).filter
    (fun p => decide (min fromIdx s.length ≤ p) && occursAt s q p)).head?

/-- Model of JS `str.replace(pat, repl)`: replace the first occurrence only. -/
def replaceFirst (s pat repl : String) : String :=
  match indexOfFrom s.data pat.data 0 with
  | none => s
  | some i =>
      ⟨(s.data.take i) ++ repl.data ++ (s.data.drop (i + pat.data.length))⟩

/-! ### Model of `search_in_file` (handleSearchInFile)

The handler reads the file, does `content.split('\n')`, and for each line runs

    let index = line.indexOf(query);
    while (index !== -1) {
      matches.push({ line: i, character: index, text: line.trim() });
      index = line.indexOf(query, index + 1);
    }

The while-loop is embedded with explicit fuel; `line.length + 1` iterations
suffice whenever the query is non-empty because each found index is strictly
larger than the previous (for the empty query the source loop never
terminates, so no fuel is faithful there). -/

/-- JS whitespace characters relevant to `String.prototype.trim`. -/
def isJsSpace (c : Char) : Bool :=
  c = ' ' || c = '\t' || c = '\n' || c = '\r' || c = '\x0b' || c = '\x0c'

/-- Model of JS `line.trim()`. -/
def trimL (s : List Char) : List Char :=
  ((s.dropWhile isJsSpace).reverse.dropWhile isJsSpace).reverse

/-- One entry of the `matches` array built by `handleSearchInFile`. -/
structure SearchMatch where
  line : Nat
  character : Nat
  text : List Char
deriving DecidableEq, Repr

/-- The `while (index !== -1)` loop of `handleSearchInFile`, with fuel. -/
def searchLineAux (line q : List Char) : Option Nat → Nat → List Nat
  | _, 0 => []
  | none, _ + 1 => []
  | some i, fuel + 1 => i :: searchLineAux line q (indexOfFrom line q (i + 1)) fuel

/-- All match positions the loop reports for one line. -/
def searchLine (line q : List Char) : List Nat :=
  searchLineAux line q (indexOfFrom line q 0) (line.length + 1)

/-- The `for` loop over the split lines, carrying the line index `i`. -/
def searchLines (q : List Char) : Nat → List (List Char) → List SearchMatch
  | _, [] => []
  | i, l :: ls =>
      ((searchLine l q).map (fun p => ⟨i, p, trimL l⟩)) ++ searchLines q (i + 1) ls

/-- Embedding of `handleSearchInFile` (the match list it serializes), given the
file content the `fs.readFile` call returns. -/
def handleSearchInFile (content q : List Char) : List SearchMatch :=
  searchLines q 0 (splitOnCharL '\n' content)

/-! ### The range-containment predicate

Embeds `isLocationInRange` from the main server file.  `projectRoot` stands
for the module-level `PROJECT_ROOT = process.cwd()`; `path.resolve(locPath)`
with a single argument resolves against the cwd, i.e. the project root. -/

/-- Embedding of `isLocationInRange(location, range, filePath)`. -/
def isLocationInRange (projectRoot : String) (location : Loc) (range : Rng)
    (filePath : String) : Bool :=
  let locPath := replaceFirst location.uri "file://" ""
  let targetPath := pathResolve projectRoot filePath
  if pathResolve projectRoot locPath ≠ targetPath then false
  else
    let locLine := location.range.start.line
    let startLine := range.start.line
    let endLine := range.stop.line
    if locLine < startLine ∨ locLine > endLine then false
    else if locLine = startLine ∧ location.range.start.character < range.start.character then false
    else if locLine = endLine ∧ location.range.stop.character > range.stop.character then false
    else true

/-- The containment predicate as the spec words it (§4.3): same resolved path
and the START position of the location alone falls within `[range.start, range.end]`
in line-major order.  Stated for comparison with `isLocationInRange`. -/
def specLocationInRange (projectRoot : String) (location : Loc) (range : Rng)
    (filePath : String) : Bool :=
  (pathResolve projectRoot (replaceFirst location.uri "file://" "")
      == pathResolve projectRoot filePath)
  && posLe range.start location.range.start
  && posLe location.range.start range.stop

/-! ### JavaScript numbers and JSON argument values

`line`/`character` arrive as JSON values and are parsed by the zod schema
`z.union([z.string(), z.number()]).transform(val => Number(val))`: a string is
accepted as-is by the union and only then coerced with `Number()`, which
yields `NaN` for a non-numeric string.  `JsNum` models a JS number that can be
`NaN`. -/

/-- A JavaScript number: either `NaN` or an actual (here integral) value. -/
inductive JsNum where
  | nan
  | int (n : Int)
deriving DecidableEq, Repr

/-- Decimal value of a digit string. -/
def natOfDigits (s : List Char) : Nat :=
  s.foldl (fun acc c => acc * 10 + (c.toNat - '0'.toNat)) 0

/-- Model of the JS `Number(string)` coercion, restricted to unsigned decimal
strings: `""` coerces to `0`, a digit string to its value, and anything else
to `NaN` (which covers every non-numeric string such as `"abc"`). -/
def jsNumberOfString (s : String) : JsNum :=
  if s.data = [] then .int 0
  else if s.data.all Char.isDigit then .int (natOfDigits s.data)
  else .nan

/-- A JSON argument value as received from the host.  Array/object values
behave exactly like `boolean`/`null` for both schemas modelled here (they
match neither `z.string()` nor `z.number()`), so these four constructors
cover all shapes the parsers distinguish. -/
inductive Json where
  | str (s : String)
  | num (n : JsNum)
  | boolean (b : Bool)
  | null
deriving DecidableEq, Repr

/-- An error thrown inside a tool handler and caught by the dispatch
boundary: a `ZodError` from `schema.parse` or an `McpError`. -/
inductive ToolError where
  | zodInvalid (msg : String)
  | mcp (msg : String)
deriving DecidableEq, Repr

/-- `e.message` of the thrown error. -/
def ToolError.message : ToolError → String
  | .zodInvalid m => m
  | .mcp m => m

/-- Model of `z.string().parse` on one (possibly absent) field. -/
def parseStr : Option Json → Except ToolError String
  | some (.str s) => .ok s
  | some _ => .error (.zodInvalid "Expected string")
  | none => .error (.zodInvalid "Required")

/-- Model of `z.union([z.string(), z.number()]).transform(Number)` on one
field: any string passes the union and is coerced by `Number()`; a number
passes unchanged; everything else (or a missing field) is a `ZodError`. -/
def parseStrOrNum : Option Json → Except ToolError JsNum
  | some (.str s) => .ok (jsNumberOfString s)
  | some (.num n) => .ok n
  | some _ => .error (.zodInvalid "Expected string or number")
  | none => .error (.zodInvalid "Required")

/-- Raw arguments of `get_definition` / `get_references` before validation. -/
structure RawPosArgs where
  filePath : Option Json
  line : Option Json
  character : Option Json
deriving DecidableEq, Repr

/-- The zod object schema shared by `handleGetDefinition` and
`handleGetReferences`. -/
def parsePosArgs (a : RawPosArgs) : Except ToolError (String × JsNum × JsNum) := do
  let fp ← parseStr a.filePath
  let l ← parseStrOrNum a.line
  let c ← parseStrOrNum a.character
  return (fp, l, c)

/-! ### Symbol trees and `findSymbol`

A response symbol is duck-typed in the source: a hierarchical
`DocumentSymbol` carries `range`/`selectionRange`/`children`, a flat
`SymbolInformation` carries `location`; absent fields are `none`. -/

/-- A document symbol as the handler sees it. -/
inductive Sym where
  | mk (name : String) (range : Option Rng) (selectionRange : Option Rng)
      (location : Option Loc) (children : Option (List Sym))

/-- Field `name` of the symbol. -/
def Sym.name : Sym → String
  | .mk n _ _ _ _ => n

/-- Field `range` of the symbol. -/
def Sym.range : Sym → Option Rng
  | .mk _ r _ _ _ => r

/-- Field `selectionRange` of the symbol. -/
def Sym.selectionRange : Sym → Option Rng
  | .mk _ _ s _ _ => s

/-- Field `location` of the symbol. -/
def Sym.location : Sym → Option Loc
  | .mk _ _ _ l _ => l

/-- Field `children` of the symbol. -/
def Sym.children : Sym → Option (List Sym)
  | .mk _ _ _ _ c => c

/-- Embedding of the nested `findSymbol` helper of `handleCheckFunctionCall`:
depth-first search, current node first, then its children, then the next
sibling; first exact-name match wins. -/
def findSymbol : List Sym → String → Option Sym
  | [], _ => none
  | .mk n r sr l c :: rest, name =>
    if n = name then some (.mk n r sr l c)
    else
      match c with
      | some cs =>
        match findSymbol cs name with
        | some found => some found
        | none => findSymbol rest name
      | none => findSymbol rest name

/-- All names occurring in a symbol forest (exactly the nodes `findSymbol`
can visit). -/
def namesOf : List Sym → List String
  | [] => []
  | .mk n _ _ _ c :: rest =>
      n :: ((match c with | some cs => namesOf cs | none => []) ++ namesOf rest)

/-! ### Tool handlers

The LSP client the handlers call into is modelled by an oracle of responses,
and each handler also returns the list of code-intelligence queries it issued
(in order).  A handler either returns a `ToolResult` or throws a `ToolError`;
a thrown error carries no query log because the `Except` short-circuits at
the throw point, which models "the error is raised before any later query is
issued". -/

/-- Result of a `textDocument/definition` request: `null`, a single
`Location`, or an array. -/
inductive DefResult where
  | noneRes
  | one (l : Loc)
  | many (ls : List Loc)

/-- Responses of the external LSP server, keyed by the arguments the client
passes on. -/
structure LspResponses where
  definition : String → JsNum → JsNum → DefResult
  references : String → JsNum → JsNum → Option (List Loc)
  documentSymbols : String → Option (List Sym)

/-- One code-intelligence query issued through the `LspClient`. -/
inductive LspCall where
  | defQuery (filePath : String) (line character : JsNum)
  | refQuery (filePath : String) (line character : JsNum)
  | symQuery (filePath : String)
deriving DecidableEq, Repr

/-- A text-content tool result with its `isError` flag (absent = `false`). -/
structure ToolResult where
  text : String
  isError : Bool
deriving DecidableEq, Repr

/-- Outcome of a handler: the query log plus the returned result. -/
abbrev HandlerOut := Except ToolError (List LspCall × ToolResult)

/-- Join strings with a separator (JS `Array.prototype.join`). -/
def joinWith (sep : String) : List String → String
  | [] => ""
  | [s] => s
  | s :: rest => s ++ sep ++ joinWith sep rest

/-- Decimal digits of a natural number, with fuel (structural stand-in for
`Nat.repr`, kept kernel-reducible). -/
def natDigits : Nat → Nat → List Char
  | 0, _ => []
  | fuel + 1, n =>
    let d : Char := Char.ofNat (48 + n % 10)
    if n < 10 then [d] else natDigits fuel (n / 10) ++ [d]

/-- Decimal rendering of a natural number. -/
def natToStr (n : Nat) : String := ⟨natDigits (n + 1) n⟩

/-- The `formatLocation` helper of `handleGetDefinition`. -/
def formatLocation (l : Loc) : String :=
  let uri := if l.uri.data.take 7 = "file://".data
    then (⟨l.uri.data.drop 7⟩ : String) else l.uri
  "File: " ++ uri ++ "\nLine: " ++ natToStr l.range.start.line
    ++ ", Character: " ++ natToStr l.range.start.character

/-- Compact rendering of a location list, standing in for
`JSON.stringify(·, null, 2)` (the claims never inspect this text; only its
role as "the serialized location list" matters). -/
def locsText (ls : List Loc) : String :=
  "[" ++ joinWith ", "
    (ls.map (fun l =>
      "\x7b" ++ "uri: " ++ l.uri
        ++ ", start: " ++ natToStr l.range.start.line ++ ":" ++ natToStr l.range.start.character
        ++ ", end: " ++ natToStr l.range.stop.line ++ ":" ++ natToStr l.range.stop.character
        ++ "\x7d")) ++ "]"

/-- Embedding of `handleGetDefinition`: validate with zod, then query the
definition; `null` gives "No definition found.", one location is formatted,
an array is formatted entry-wise (an empty array is truthy in JS, so it is
NOT the "not found" case: it renders as empty text). -/
def handleGetDefinition (resp : LspResponses) (a : RawPosArgs) : HandlerOut := do
  let (filePath, line, character) ← parsePosArgs a
  let log := [LspCall.defQuery filePath line character]
  match resp.definition filePath line character with
  | .noneRes => return (log, ⟨"No definition found.", false⟩)
  | .one l => return (log, ⟨formatLocation l, false⟩)
  | .many ls => return (log, ⟨joinWith "\n\n" (ls.map formatLocation), false⟩)

/-- Embedding of `handleGetReferences`: validate with zod, then query the
references and serialize the raw result (`null` serializes to "null"). -/
def handleGetReferences (resp : LspResponses) (a : RawPosArgs) : HandlerOut := do
  let (filePath, line, character) ← parsePosArgs a
  let log := [LspCall.refQuery filePath line character]
  match resp.references filePath line character with
  | none => return (log, ⟨"null", false⟩)
  | some ls => return (log, ⟨locsText ls, false⟩)

/-- Raw arguments of `check_function_call` before validation. -/
structure RawCheckArgs where
  sourceFile : Option Json
  sourceFunction : Option Json
  targetFile : Option Json
  targetFunction : Option Json
deriving DecidableEq, Repr

/-- Well-formed string arguments for `check_function_call`. -/
def strCheckArgs (sf sfn tf tfn : String) : RawCheckArgs :=
  ⟨some (.str sf), some (.str sfn), some (.str tf), some (.str tfn)⟩

/-- The zod object schema of `handleCheckFunctionCall`. -/
def parseCheckArgs (a : RawCheckArgs) :
    Except ToolError (String × String × String × String) := do
  let sf ← parseStr a.sourceFile
  let sfn ← parseStr a.sourceFunction
  let tf ← parseStr a.targetFile
  let tfn ← parseStr a.targetFunction
  return (sf, sfn, tf, tfn)

/-- Step 4 of the resolver: the identifying position of the target symbol,
preferring `selectionRange.start`, falling back to `location.range.start`. -/
def targetPosOf (s : Sym) : Option (Nat × Nat) :=
  match s.selectionRange with
  | some sr => some (sr.start.line, sr.start.character)
  | none =>
    match s.location with
    | some l => some (l.range.start.line, l.range.start.character)
    | none => none

/-- Step 6 of the resolver: the containing range of the source symbol, preferring
`range`, falling back to `location.range`. -/
def sourceRangeOf (s : Sym) : Option Rng :=
  match s.range with
  | some r => some r
  | none =>
    match s.location with
    | some l => some l.range
    | none => none

/-- The "no references" failure text of `handleCheckFunctionCall`. -/
def noRefsMsg : String := "No references found for target function"

/-- The "source function not found" text (`\x27` is the ASCII apostrophe). -/
def srcNotFoundMsg (fn file : String) : String :=
  "Source function \x27" ++ fn ++ "\x27 not found in " ++ file

/-- The "target function not found" text. -/
def tgtNotFoundMsg (fn file : String) : String :=
  "Target function \x27" ++ fn ++ "\x27 not found in " ++ file

/-- The positive verdict text. -/
def yesMsg (sfn tfn : String) (calls : List Loc) : String :=
  "Yes, \x27" ++ sfn ++ "\x27 calls \x27" ++ tfn ++ "\x27 "
    ++ natToStr calls.length ++ " times.\nLocations: " ++ locsText calls

/-- The negative verdict text. -/
def noCallMsg (sfn tfn : String) : String :=
  "No direct call found from \x27" ++ sfn ++ "\x27 to \x27" ++ tfn ++ "\x27."

/-- Embedding of `handleCheckFunctionCall` (§4.2 of the spec): outline the
source file, find the source symbol, outline the target file, find the target
symbol, derive its position, request references (a `null` response — and only
`null`: an empty array is truthy in JS — yields `noRefsMsg`), derive the
source range, filter the references through `isLocationInRange` and report. -/
def handleCheckFunctionCall (resp : LspResponses) (root : String)
    (a : RawCheckArgs) : HandlerOut := do
  let (sourceFile, sourceFunction, targetFile, targetFunction) ← parseCheckArgs a
  match resp.documentSymbols sourceFile with
  | none => return ([.symQuery sourceFile], ⟨"Source file symbols not found", false⟩)
  | some sourceSymbols =>
  match findSymbol sourceSymbols sourceFunction with
  | none => return ([.symQuery sourceFile],
      ⟨srcNotFoundMsg sourceFunction sourceFile, false⟩)
  | some sourceSym =>
  match resp.documentSymbols targetFile with
  | none => return ([.symQuery sourceFile, .symQuery targetFile],
      ⟨"Target file symbols not found", false⟩)
  | some targetSymbols =>
  match findSymbol targetSymbols targetFunction with
  | none => return ([.symQuery sourceFile, .symQuery targetFile],
      ⟨tgtNotFoundMsg targetFunction targetFile, false⟩)
  | some targetSym =>
  match targetPosOf targetSym with
  | none => return ([.symQuery sourceFile, .symQuery targetFile],
      ⟨"Could not determine location of target symbol", false⟩)
  | some (targetLine, targetChar) =>
  let log := [LspCall.symQuery sourceFile, .symQuery targetFile,
              .refQuery targetFile (.int targetLine) (.int targetChar)]
  match resp.references targetFile (.int targetLine) (.int targetChar) with
  | none => return (log, ⟨noRefsMsg, false⟩)
  | some references =>
  match sourceRangeOf sourceSym with
  | none => return (log, ⟨"Could not determine range of source symbol", false⟩)
  | some sourceRange =>
  let calls := references.filter (fun r => isLocationInRange root r sourceRange sourceFile)
  if calls.length > 0 then
    return (log, ⟨yesMsg sourceFunction targetFunction calls, false⟩)
  else
    return (log, ⟨noCallMsg sourceFunction targetFunction, false⟩)

/-! ### The tool-dispatch boundary

The `CallToolRequestSchema` handler switches on the tool name inside a
`try`/`catch`; a thrown error is converted into a text result with the
`isError` flag set, so nothing escapes the boundary.  (`search_in_file` is
modelled separately above because its collaborator is the filesystem, not
the LSP client.) -/

/-- An inbound tool call for one of the LSP-backed tools. -/
inductive ToolRequest where
  | getDefn (a : RawPosArgs)
  | getRefs (a : RawPosArgs)
  | checkCall (a : RawCheckArgs)
  | unknownTool (name : String)

/-- Embedding of the dispatch handler: route by name, catch everything. -/
def callTool (resp : LspResponses) (root : String) : ToolRequest → ToolResult
  | .getDefn a =>
    match handleGetDefinition resp a with
    | .ok (_, r) => r
    | .error e => ⟨"Error: " ++ e.message, true⟩
  | .getRefs a =>
    match handleGetReferences resp a with
    | .ok (_, r) => r
    | .error e => ⟨"Error: " ++ e.message, true⟩
  | .checkCall a =>
    match handleCheckFunctionCall resp root a with
    | .ok (_, r) => r
    | .error e => ⟨"Error: " ++ e.message, true⟩
  | .unknownTool name =>
    ⟨"Error: " ++ (ToolError.mcp ("MCP error -32601: Unknown tool: " ++ name)).message, true⟩

/-! ### The stateful `LspClient` (src/src/lspClient.ts)

The mutable fields of the client are `isInitialized` and `openFiles`; its effects
are the protocol messages written to the subprocess.  Each operation is
embedded as a state transformer that also returns the ordered list of
messages it sent; the filesystem and the handshake outcome are oracles. -/

/-- A protocol message sent to the LSP subprocess. -/
inductive Msg where
  | initRequest
  | initializedNote
  | didOpenNote (uri : String) (languageId : String) (text : String)
  | defRequest (uri : String) (line character : JsNum)
  | refRequest (uri : String) (line character : JsNum)
  | hoverRequest (uri : String) (line character : JsNum)
  | docSymRequest (uri : String)
deriving DecidableEq, Repr

/-- The mutable client state: the `isInitialized` flag and the
`openFiles` set (OpenFileSet), as a duplicate-free membership list. -/
structure ClientState where
  isInitialized : Bool
  openFiles : List String
deriving DecidableEq, Repr

/-- The state right after the constructor ran. -/
def initialState : ClientState := ⟨false, []⟩

/-- The collaborators of one client operation: `fs.readFile` (by absolute
path; `none` is a rejected promise) and the outcome the server gives the
`initialize` request. -/
structure ClientEnv where
  readFile : String → Option String
  handshake : Except String Unit

/-- JS `Set.prototype.add`. -/
def setAdd (s : List String) (x : String) : List String :=
  if x ∈ s then s else x :: s

/-- The `getLanguageId` helper: dispatch on the file extension. -/
def endsWithL (s suffix : List Char) : Bool :=
  s.drop (s.length - suffix.length) == suffix

/-- Embedding of `LspClient.getLanguageId`. -/
def getLanguageId (filePath : String) : String :=
  if endsWithL filePath.data ".ts".data then "typescript"
  else if endsWithL filePath.data ".js".data then "javascript"
  else if endsWithL filePath.data ".py".data then "python"
  else "plaintext"

/-- Embedding of `LspClient.initialize` (renamed: `initialize` is a Lean
keyword-like token): an immediate no-op when already initialized; otherwise
send the `initialize` request, and on success send the `initialized`
notification and set the flag; on failure rethrow with the flag untouched. -/
def initializeClient (env : ClientEnv) (st : ClientState) :
    ClientState × List Msg × Except String Unit :=
  if st.isInitialized then (st, [], .ok ())
  else
    match env.handshake with
    | .ok () => ({ st with isInitialized := true },
        [Msg.initRequest, Msg.initializedNote], .ok ())
    | .error e => (st, [Msg.initRequest], .error e)

/-- Embedding of `LspClient.ensureInitialized`. -/
def ensureInitialized (env : ClientEnv) (st : ClientState) :
    ClientState × List Msg × Except String Unit :=
  if st.isInitialized then (st, [], .ok ())
  else initializeClient env st

/-- Embedding of `LspClient.didOpen`: skip if the URI is already open;
otherwise read the file and, if the read succeeds, send the `didOpen`
notification and add the URI; a read failure is logged and swallowed,
leaving the state unchanged. -/
def didOpen (env : ClientEnv) (root filePath : String) (st : ClientState) :
    ClientState × List Msg :=
  let fullPath := pathResolve root filePath
  let uri := "file://" ++ fullPath
  if uri ∈ st.openFiles then (st, [])
  else
    match env.readFile fullPath with
    | some content =>
        ({ st with openFiles := setAdd st.openFiles uri },
         [Msg.didOpenNote uri (getLanguageId filePath) content])
    | none => (st, [])

/-- Which position- or document-scoped query an operation issues. -/
inductive QueryKind where
  | defn
  | refs
  | hover
  | docSyms
deriving DecidableEq, Repr

/-- The request message each query kind sends. -/
def queryRequestMsg : QueryKind → String → JsNum → JsNum → Msg
  | .defn, uri, l, c => .defRequest uri l c
  | .refs, uri, l, c => .refRequest uri l c
  | .hover, uri, l, c => .hoverRequest uri l c
  | .docSyms, uri, _, _ => .docSymRequest uri

/-- Embedding of the shared body of `getDefinition` / `getReferences` /
`getHover` / `getDocumentSymbols`: `ensureInitialized` (an error there
propagates and aborts the call), then `didOpen`, then send the request for
`file://` + the path resolved against the root. -/
def runQuery (env : ClientEnv) (root : String) (k : QueryKind)
    (filePath : String) (line character : JsNum) (st : ClientState) :
    ClientState × List Msg × Except String Unit :=
  match ensureInitialized env st with
  | (st1, ms1, .error e) => (st1, ms1, .error e)
  | (st1, ms1, .ok ()) =>
    let (st2, ms2) := didOpen env root filePath st1
    let uri := "file://" ++ pathResolve root filePath
    (st2, ms1 ++ ms2 ++ [queryRequestMsg k uri line character], .ok ())

/-- One query operation of a process trace. -/
structure Op where
  kind : QueryKind
  filePath : String
  line : JsNum
  character : JsNum
deriving DecidableEq, Repr

/-- Run a sequence of query operations, collecting every message sent. -/
def runOps (env : ClientEnv) (root : String) : List Op → ClientState → ClientState × List Msg
  | [], st => (st, [])
  | op :: ops, st =>
    let (st1, ms1, _) := runQuery env root op.kind op.filePath op.line op.character st
    let (st2, ms2) := runOps env root ops st1
    (st2, ms1 ++ ms2)

/-- Is `m` a `didOpen` notification for `uri`? -/
def isOpenNoteFor (uri : String) : Msg → Bool
  | .didOpenNote u _ _ => u == uri
  | _ => false

/-- Number of `didOpen` notifications for `uri` in a message list. -/
def didOpenCount (ms : List Msg) (uri : String) : Nat :=
  (ms.filter (isOpenNoteFor uri)).length

/-! ### Spec-side validity predicates and concrete witness inputs

`validStrField` / `validNumField` describe exactly which field shapes the two
zod schemas accept; the `w…`/`env…` constants below are small concrete
oracles used to instantiate the theorems on closed inputs. -/

/-- Does a raw field match `z.string()`? -/
def validStrField : Option Json → Bool
  | some (.str _) => true
  | _ => false

/-- Does a raw field match `z.union([z.string(), z.number()])`? -/
def validNumField : Option Json → Bool
  | some (.str _) => true
  | some (.num _) => true
  | _ => false

/-- A concrete document symbol named `f`. -/
def wSymF : Sym := Sym.mk "f" (some ⟨⟨0,0⟩,⟨3,1⟩⟩) (some ⟨⟨0,9⟩,⟨0,10⟩⟩) none none

/-- A concrete document symbol named `g`. -/
def wSymG : Sym := Sym.mk "g" (some ⟨⟨5,0⟩,⟨8,1⟩⟩) (some ⟨⟨5,9⟩,⟨5,10⟩⟩) none none

/-- A concrete two-symbol outline. -/
def wSyms : List Sym := [wSymF, wSymG]

/-- A concrete response oracle: definitions and references resolve to
nothing, every outline is `wSyms`. -/
def wResp : LspResponses where
  definition := fun _ _ _ => .noneRes
  references := fun _ _ _ => none
  documentSymbols := fun _ => some wSyms

/-- Client environment whose handshake fails. -/
def envFail : ClientEnv := ⟨fun _ => some "", .error "handshake failed"⟩

/-- Client environment where everything succeeds. -/
def envOk : ClientEnv := ⟨fun _ => some "let x = 1", .ok ()⟩

/-- Client environment where every file read fails. -/
def envNoRead : ClientEnv := ⟨fun _ => none, .ok ()⟩

/-! ## Theorems -/

/-- Full characterization of `isLocationInRange`: the resolved paths must
agree, the start line of the location must lie in the line span of the range,
with the start character checked on the first line and — unlike the spec
wording — the END character of the location checked on the last line. -/
theorem isLocationInRange_iff (root : String) (loc : Loc) (rng : Rng) (fp : String) :
    isLocationInRange root loc rng fp = true ↔
      (pathResolve root (replaceFirst loc.uri "file://" "") = pathResolve root fp
       ∧ rng.start.line ≤ loc.range.start.line
       ∧ loc.range.start.line ≤ rng.stop.line
       ∧ (loc.range.start.line = rng.start.line → rng.start.character ≤ loc.range.start.character)
       ∧ (loc.range.start.line = rng.stop.line → loc.range.stop.character ≤ rng.stop.character)) := by
  simp only [isLocationInRange]
  split_ifs with h1 h2 h3 h4
  · simp only [false_iff]
    intro hR
    exact h1 hR.1
  · simp only [false_iff]
    intro hR
    omega
  · simp only [false_iff]
    intro hR
    omega
  · simp only [false_iff]
    intro hR
    omega
  · simp only [true_iff]
    push_neg at h1 h2 h3 h4
    refine ⟨h1, ?_, ?_, ?_, ?_⟩ <;> omega

/-- Claim C1, counterexample: at this concrete input the predicate the spec
words describe (`specLocationInRange`, containment decided by the start
position alone) returns `true`, but `isLocationInRange` returns `false`,
because on the end line the code compares the END character of the location
(20) against the end character of the range (10).  So the claimed
if-and-only-if is false. -/
theorem c1_counterexample :
    specLocationInRange "/proj" ⟨"file:///proj/a.ts", ⟨⟨5,3⟩,⟨5,20⟩⟩⟩ ⟨⟨0,0⟩,⟨5,10⟩⟩ "a.ts" = true
    ∧ isLocationInRange "/proj" ⟨"file:///proj/a.ts", ⟨⟨5,3⟩,⟨5,20⟩⟩⟩ ⟨⟨0,0⟩,⟨5,10⟩⟩ "a.ts" = false := by
  constructor
  · decide
  · decide

/-- Claim C1, amended: `isLocationInRange` returns true iff the document URI
of the location resolves to the same absolute path as the reference file path
resolved against the project root, the start line of the location lies within
the line span of the range, on the start line the start character of the
location is at or after the start character of the range, and on the end line
the END character of the location (not its start character) is at or before
the end character of the range. -/
theorem c1_amended (root : String) (loc : Loc) (rng : Rng) (fp : String) :
    isLocationInRange root loc rng fp = true ↔
      (pathResolve root (replaceFirst loc.uri "file://" "") = pathResolve root fp
       ∧ rng.start.line ≤ loc.range.start.line
       ∧ loc.range.start.line ≤ rng.stop.line
       ∧ (loc.range.start.line = rng.start.line → rng.start.character ≤ loc.range.start.character)
       ∧ (loc.range.start.line = rng.stop.line → loc.range.stop.character ≤ rng.stop.character)) :=
  isLocationInRange_iff root loc rng fp

/-- Claim C7: with a matching file path and a well-formed range, a point
location exactly at `R.start` or exactly at `R.stop` is contained; a point
location one character before `R.start` on the start line, or one character
after `R.stop` on the end line, is not contained; and on a strictly interior
line any character is contained. -/
theorem c7_boundaries (root fp uri : String) (R : Rng)
    (hpath : pathResolve root (replaceFirst uri "file://" "") = pathResolve root fp)
    (hwf : posLe R.start R.stop = true) :
    isLocationInRange root ⟨uri, ⟨R.start, R.start⟩⟩ R fp = true
    ∧ isLocationInRange root ⟨uri, ⟨R.stop, R.stop⟩⟩ R fp = true
    ∧ (1 ≤ R.start.character →
        isLocationInRange root ⟨uri, ⟨⟨R.start.line, R.start.character - 1⟩, ⟨R.start.line, R.start.character - 1⟩⟩⟩ R fp = false)
    ∧ isLocationInRange root ⟨uri, ⟨⟨R.stop.line, R.stop.character + 1⟩, ⟨R.stop.line, R.stop.character + 1⟩⟩⟩ R fp = false
    ∧ (∀ ln ch, R.start.line < ln → ln < R.stop.line →
        isLocationInRange root ⟨uri, ⟨⟨ln, ch⟩, ⟨ln, ch⟩⟩⟩ R fp = true) := by
  simp only [posLe, Bool.or_eq_true, Bool.and_eq_true, decide_eq_true_eq, beq_iff_eq,
    Nat.lt_iff_add_one_le] at hwf
  refine ⟨?_, ?_, ?_, ?_, ?_⟩
  · rw [isLocationInRange_iff]
    dsimp only
    exact ⟨hpath, by omega, by omega, by omega, by omega⟩
  · rw [isLocationInRange_iff]
    dsimp only
    exact ⟨hpath, by omega, by omega, by omega, by omega⟩
  · intro hc
    rw [← Bool.not_eq_true, isLocationInRange_iff]
    dsimp only
    intro hR
    omega
  · rw [← Bool.not_eq_true, isLocationInRange_iff]
    dsimp only
    intro hR
    omega
  · intro ln ch h1 h2
    rw [isLocationInRange_iff]
    dsimp only
    exact ⟨hpath, by omega, by omega, by omega, by omega⟩


/-- Claim C7, witness at a concrete range and path. -/
theorem c7_boundaries_witness :
    isLocationInRange "/r" ⟨"file:///r/a.ts", ⟨⟨2,3⟩,⟨2,3⟩⟩⟩ ⟨⟨2,3⟩,⟨5,4⟩⟩ "a.ts" = true
    ∧ isLocationInRange "/r" ⟨"file:///r/a.ts", ⟨⟨5,4⟩,⟨5,4⟩⟩⟩ ⟨⟨2,3⟩,⟨5,4⟩⟩ "a.ts" = true
    ∧ isLocationInRange "/r" ⟨"file:///r/a.ts", ⟨⟨2,2⟩,⟨2,2⟩⟩⟩ ⟨⟨2,3⟩,⟨5,4⟩⟩ "a.ts" = false
    ∧ isLocationInRange "/r" ⟨"file:///r/a.ts", ⟨⟨5,5⟩,⟨5,5⟩⟩⟩ ⟨⟨2,3⟩,⟨5,4⟩⟩ "a.ts" = false
    ∧ isLocationInRange "/r" ⟨"file:///r/a.ts", ⟨⟨3,100⟩,⟨3,100⟩⟩⟩ ⟨⟨2,3⟩,⟨5,4⟩⟩ "a.ts" = true := by
  have h := c7_boundaries "/r" "a.ts" "file:///r/a.ts" ⟨⟨2,3⟩,⟨5,4⟩⟩ (by decide) (by decide)
  exact ⟨h.1, h.2.1, h.2.2.1 (by decide), h.2.2.2.1, h.2.2.2.2 3 100 (by decide) (by decide)⟩

/-- Claim C2: whenever the reference request of `check_function_call` returns
nothing (`none`), the handler returns the text "No references found for
target function" without the error flag — and since a target with zero
references is observed at this layer as the same `none` response, that case
produces the identical message through the identical branch. -/
theorem c2_no_references (resp : LspResponses) (root sf sfn tf tfn : String)
    (ssyms tsyms : List Sym) (ssym tsym : Sym) (tl tc : Nat)
    (h1 : resp.documentSymbols sf = some ssyms)
    (h2 : findSymbol ssyms sfn = some ssym)
    (h3 : resp.documentSymbols tf = some tsyms)
    (h4 : findSymbol tsyms tfn = some tsym)
    (h5 : targetPosOf tsym = some (tl, tc))
    (h6 : resp.references tf (.int tl) (.int tc) = none) :
    handleCheckFunctionCall resp root (strCheckArgs sf sfn tf tfn) =
      .ok ([.symQuery sf, .symQuery tf, .refQuery tf (.int tl) (.int tc)],
           ⟨noRefsMsg, false⟩) := by
  simp only [handleCheckFunctionCall, parseCheckArgs, strCheckArgs, parseStr,
    bind, Except.bind, pure, Except.pure, h1, h2, h3, h4, h5, h6]

/-- Claim C2, witness on a concrete oracle whose reference query returns
nothing. -/
theorem c2_witness :
    handleCheckFunctionCall wResp "/r" (strCheckArgs "a.ts" "f" "b.ts" "g") =
      .ok ([.symQuery "a.ts", .symQuery "b.ts", .refQuery "b.ts" (.int 5) (.int 9)],
           ⟨noRefsMsg, false⟩) :=
  c2_no_references wResp "/r" "a.ts" "f" "b.ts" "g" wSyms wSyms wSymF wSymG 5 9
    rfl (by simp [findSymbol, wSyms, wSymF, wSymG]) rfl
    (by simp [findSymbol, wSyms, wSymF, wSymG]) rfl rfl

/-- If a name occurs nowhere in a symbol forest, the depth-first search of
`findSymbol` returns `none`. -/
theorem findSymbol_eq_none : ∀ (syms : List Sym) (name : String),
    name ∉ namesOf syms → findSymbol syms name = none
  | [], _, _ => by simp [findSymbol]
  | .mk n r sr l none :: rest, name, h => by
    simp only [namesOf, List.mem_cons, List.nil_append] at h
    push_neg at h
    simp only [findSymbol]
    rw [if_neg (fun hh => h.1 hh.symm)]
    exact findSymbol_eq_none rest name h.2
  | .mk n r sr l (some cs) :: rest, name, h => by
    simp only [namesOf, List.mem_cons, List.mem_append] at h
    push_neg at h
    simp only [findSymbol]
    rw [if_neg (fun hh => h.1 hh.symm)]
    rw [findSymbol_eq_none cs name h.2.1]
    exact findSymbol_eq_none rest name h.2.2

/-- Claim C8: when the source outline is returned but contains no node whose
name equals `sourceFunction`, the dispatched `check_function_call` returns
the "Source function ... not found" text naming the missing function, with
the error flag false — no exception escapes the dispatch boundary. -/
theorem c8_missing_source (resp : LspResponses) (root sf sfn tf tfn : String)
    (ssyms : List Sym)
    (h1 : resp.documentSymbols sf = some ssyms)
    (h2 : sfn ∉ namesOf ssyms) :
    callTool resp root (.checkCall (strCheckArgs sf sfn tf tfn)) =
      ⟨srcNotFoundMsg sfn sf, false⟩ := by
  have hf := findSymbol_eq_none ssyms sfn h2
  simp only [callTool, handleCheckFunctionCall, parseCheckArgs, strCheckArgs, parseStr,
    bind, Except.bind, pure, Except.pure, h1, hf]

/-- Claim C8, witness: a concrete outline without the requested name. -/
theorem c8_witness :
    callTool wResp "/r" (.checkCall (strCheckArgs "a.ts" "h" "b.ts" "g")) =
      ⟨srcNotFoundMsg "h" "a.ts", false⟩ :=
  c8_missing_source wResp "/r" "a.ts" "h" "b.ts" "g" wSyms rfl
    (by simp [namesOf, wSyms, wSymF, wSymG])

/-- A field rejected by `z.string()` produces a `ZodError`. -/
theorem parseStr_error (j : Option Json) (h : validStrField j = false) :
    ∃ m, parseStr j = .error (.zodInvalid m) := by
  match j with
  | none => exact ⟨"Required", rfl⟩
  | some (.str s) => simp [validStrField] at h
  | some (.num n) => exact ⟨"Expected string", rfl⟩
  | some (.boolean b) => exact ⟨"Expected string", rfl⟩
  | some .null => exact ⟨"Expected string", rfl⟩

/-- A field rejected by the string-or-number union produces a `ZodError`. -/
theorem parseStrOrNum_error (j : Option Json) (h : validNumField j = false) :
    ∃ m, parseStrOrNum j = .error (.zodInvalid m) := by
  match j with
  | none => exact ⟨"Required", rfl⟩
  | some (.str s) => simp [validNumField] at h
  | some (.num n) => simp [validNumField] at h
  | some (.boolean b) => exact ⟨"Expected string or number", rfl⟩
  | some .null => exact ⟨"Expected string or number", rfl⟩

/-- A field accepted by `z.string()` parses successfully. -/
theorem parseStr_ok (j : Option Json) (h : validStrField j = true) :
    ∃ s, parseStr j = .ok s := by
  match j with
  | none => simp [validStrField] at h
  | some (.str s) => exact ⟨s, rfl⟩
  | some (.num n) => simp [validStrField] at h
  | some (.boolean b) => simp [validStrField] at h
  | some .null => simp [validStrField] at h

/-- A field accepted by the union parses successfully. -/
theorem parseStrOrNum_ok (j : Option Json) (h : validNumField j = true) :
    ∃ n, parseStrOrNum j = .ok n := by
  match j with
  | none => simp [validNumField] at h
  | some (.str s) => exact ⟨jsNumberOfString s, rfl⟩
  | some (.num n) => exact ⟨n, rfl⟩
  | some (.boolean b) => simp [validNumField] at h
  | some .null => simp [validNumField] at h

/-- If any field of the positional-argument object is missing or of a shape
the schema rejects, the whole zod parse throws. -/
theorem parsePosArgs_error (a : RawPosArgs)
    (h : validStrField a.filePath = false ∨ validNumField a.line = false
         ∨ validNumField a.character = false) :
    ∃ m, parsePosArgs a = .error (.zodInvalid m) := by
  by_cases hfp : validStrField a.filePath = true
  · obtain ⟨s, hs⟩ := parseStr_ok _ hfp
    by_cases hl : validNumField a.line = true
    · have hc : validNumField a.character = false := by
        rcases h with h | h | h
        · rw [hfp] at h; cases h
        · rw [hl] at h; cases h
        · exact h
      obtain ⟨n, hn⟩ := parseStrOrNum_ok _ hl
      obtain ⟨m, hm⟩ := parseStrOrNum_error _ hc
      exact ⟨m, by simp [parsePosArgs, hs, hn, hm, bind, Except.bind]⟩
    · obtain ⟨m, hm⟩ := parseStrOrNum_error _ (Bool.not_eq_true _ ▸ hl)
      exact ⟨m, by simp [parsePosArgs, hs, hm, bind, Except.bind]⟩
  · obtain ⟨m, hm⟩ := parseStr_error _ (Bool.not_eq_true _ ▸ hfp)
    exact ⟨m, by simp [parsePosArgs, hm, bind, Except.bind]⟩

/-- Claim C3, amended: for `get_definition` and `get_references`, a missing
field, or a field that is neither a string nor a number, surfaces a
structured validation error (`ZodError`) and the handler aborts before any
code-intelligence query is issued (the error result carries no query log).
A non-numeric STRING is not such a case: the union accepts every string. -/
theorem c3_amended (resp : LspResponses) (a : RawPosArgs)
    (h : validStrField a.filePath = false ∨ validNumField a.line = false
         ∨ validNumField a.character = false) :
    (∃ m, handleGetDefinition resp a = .error (.zodInvalid m))
    ∧ (∃ m, handleGetReferences resp a = .error (.zodInvalid m)) := by
  obtain ⟨m, hm⟩ := parsePosArgs_error a h
  constructor
  · exact ⟨m, by simp [handleGetDefinition, hm, bind, Except.bind]⟩
  · exact ⟨m, by simp [handleGetReferences, hm, bind, Except.bind]⟩

/-- Claim C3, witness: a missing `filePath` makes both handlers throw the
validation error. -/
theorem c3_amended_witness :
    ((∃ m, handleGetDefinition wResp ⟨none, some (.str "3"), some (.str "4")⟩ = .error (.zodInvalid m))
     ∧ (∃ m, handleGetReferences wResp ⟨none, some (.str "3"), some (.str "4")⟩ = .error (.zodInvalid m))) :=
  c3_amended wResp ⟨none, some (.str "3"), some (.str "4")⟩ (Or.inl rfl)

/-- Claim C3, counterexample: the non-numeric string "abc" for `line` — the
example the claim itself gives as malformed — passes zod validation
(`z.union([z.string(), z.number()]).transform(Number)` accepts any string
and coerces it to `NaN`), and the definition query IS issued, with
`line = NaN`.  No validation error is surfaced. -/
theorem c3_counterexample :
    handleGetDefinition wResp ⟨some (.str "a.ts"), some (.str "abc"), some (.str "0")⟩ =
      .ok ([.defQuery "a.ts" JsNum.nan (JsNum.int 0)], ⟨"No definition found.", false⟩) := rfl

/-- Claim C5: `initialize` is idempotent on success and sticky only on
success — when already initialized it returns at once performing no
handshake; when the handshake fails the error propagates with the flag still
false and the state unchanged; any query on an uninitialized client
re-attempts the handshake; and a successful handshake sets the flag, after
which a later `initialize` is a no-op. -/
theorem c5_init (env env2 : ClientEnv) (root fp : String)
    (k : QueryKind) (l c : JsNum) (st : ClientState) (e : String) :
    (st.isInitialized = true → initializeClient env st = (st, [], .ok ()))
    ∧ (st.isInitialized = false → env.handshake = .error e →
        initializeClient env st = (st, [Msg.initRequest], .error e))
    ∧ (st.isInitialized = false → Msg.initRequest ∈ (runQuery env2 root k fp l c st).2.1)
    ∧ (st.isInitialized = false → env.handshake = .ok () →
        initializeClient env st =
          ({ st with isInitialized := true }, [Msg.initRequest, Msg.initializedNote], .ok ())
        ∧ initializeClient env2 { st with isInitialized := true } =
            ({ st with isInitialized := true }, [], .ok ())) := by
  refine ⟨?_, ?_, ?_, ?_⟩
  · intro h
    simp [initializeClient, h]
  · intro h he
    simp [initializeClient, h, he]
  · intro h
    rcases he : env2.handshake with ⟨⟨⟩⟩ | e2 <;>
      simp [runQuery, ensureInitialized, initializeClient, h, he]
  · intro h he
    constructor
    · simp [initializeClient, h, he]
    · simp [initializeClient]

/-- Claim C5, witness on concrete failing and succeeding environments. -/
theorem c5_init_witness :
    initializeClient envFail initialState = (initialState, [Msg.initRequest], .error "handshake failed")
    ∧ Msg.initRequest ∈ (runQuery envOk "/r" .defn "a.ts" (.int 0) (.int 0) initialState).2.1
    ∧ initializeClient envOk initialState =
        (⟨true, []⟩, [Msg.initRequest, Msg.initializedNote], .ok ())
    ∧ initializeClient envFail ⟨true, []⟩ = (⟨true, []⟩, [], .ok ()) := by
  have h1 := c5_init envFail envOk "/r" "a.ts" QueryKind.defn (.int 0) (.int 0) initialState "handshake failed"
  have h2 := c5_init envOk envFail "/r" "a.ts" QueryKind.defn (.int 0) (.int 0) initialState "x"
  exact ⟨h1.2.1 rfl rfl, h1.2.2.1 rfl, (h2.2.2.2 rfl rfl).1, (h2.2.2.2 rfl rfl).2⟩

/-- Claim C9: when the file read inside `didOpen` fails, the state is
returned unchanged (the URI is NOT added to the open set) and no notification
is sent, yet the `getDefinition` query still proceeds and sends its request;
a later `didOpen` against the same file retries the read and, if it now
succeeds, sends the notification and adds the URI. -/
theorem c9_read_failure (env env2 : ClientEnv) (root fp : String) (l c : JsNum)
    (st : ClientState) (content : String)
    (hmem : ("file://" ++ pathResolve root fp) ∉ st.openFiles)
    (hread : env.readFile (pathResolve root fp) = none)
    (hinit : st.isInitialized = true)
    (hread2 : env2.readFile (pathResolve root fp) = some content) :
    didOpen env root fp st = (st, [])
    ∧ runQuery env root .defn fp l c st =
        (st, [Msg.defRequest ("file://" ++ pathResolve root fp) l c], .ok ())
    ∧ didOpen env2 root fp st =
        ({ st with openFiles := setAdd st.openFiles ("file://" ++ pathResolve root fp) },
         [Msg.didOpenNote ("file://" ++ pathResolve root fp) (getLanguageId fp) content]) := by
  refine ⟨?_, ?_, ?_⟩
  · simp [didOpen, hmem, hread]
  · simp [runQuery, ensureInitialized, hinit, didOpen, hmem, hread, queryRequestMsg]
  · simp [didOpen, hmem, hread2]

/-- Claim C9, witness on concrete environments. -/
theorem c9_read_failure_witness :
    didOpen envNoRead "/r" "a.ts" ⟨true, []⟩ = (⟨true, []⟩, [])
    ∧ runQuery envNoRead "/r" .defn "a.ts" (.int 1) (.int 2) ⟨true, []⟩ =
        (⟨true, []⟩, [Msg.defRequest ("file://" ++ pathResolve "/r" "a.ts") (.int 1) (.int 2)], .ok ())
    ∧ didOpen envOk "/r" "a.ts" ⟨true, []⟩ =
        (⟨true, [("file://" ++ pathResolve "/r" "a.ts")]⟩,
         [Msg.didOpenNote ("file://" ++ pathResolve "/r" "a.ts") "typescript" "let x = 1"]) := by
  have h := c9_read_failure envNoRead envOk "/r" "a.ts" (.int 1) (.int 2) ⟨true, []⟩ "let x = 1"
    (by simp) rfl rfl rfl
  exact ⟨h.1, h.2.1, h.2.2⟩

/-- Counting open-notifications distributes over append. -/
theorem didOpenCount_append (xs ys : List Msg) (u : String) :
    didOpenCount (xs ++ ys) u = didOpenCount xs u + didOpenCount ys u := by
  simp [didOpenCount, List.filter_append]

/-- A query request message is never an open-notification. -/
theorem didOpenCount_query (k : QueryKind) (uri : String) (l c : JsNum) (u : String) :
    didOpenCount [queryRequestMsg k uri l c] u = 0 := by
  cases k <;> simp [didOpenCount, queryRequestMsg, isOpenNoteFor]

/-- `ensureInitialized` never touches the open-file set. -/
theorem ensure_openFiles (env : ClientEnv) (st : ClientState) :
    (ensureInitialized env st).1.openFiles = st.openFiles := by
  rcases he : env.handshake with ⟨⟨⟩⟩ | e <;>
    simp [ensureInitialized, initializeClient, he] <;> split <;> simp

/-- `ensureInitialized` sends no open-notification. -/
theorem ensure_count (env : ClientEnv) (st : ClientState) (u : String) :
    didOpenCount (ensureInitialized env st).2.1 u = 0 := by
  rcases he : env.handshake with ⟨⟨⟩⟩ | e <;>
    simp [ensureInitialized, initializeClient, he] <;> split <;>
      simp [didOpenCount, isOpenNoteFor]

/-- With a succeeding handshake, `ensureInitialized` cannot fail. -/
theorem ensure_ok (env : ClientEnv) (st : ClientState) (hh : env.handshake = .ok ()) :
    (ensureInitialized env st).2.2 = .ok () := by
  simp [ensureInitialized, initializeClient, hh]
  split <;> simp

/-- `didOpen` only grows the open-file set. -/
theorem didOpen_mono (env : ClientEnv) (root fp : String) (st : ClientState) :
    st.openFiles ⊆ (didOpen env root fp st).1.openFiles := by
  simp only [didOpen]
  split
  · exact fun a h => h
  · rcases hr : env.readFile (pathResolve root fp) with _ | content
    · exact fun a h => h
    · intro a ha
      simp only [setAdd]
      split
      · exact ha
      · exact List.mem_cons_of_mem _ ha

/-- `didOpen` sends exactly one notification for `u` exactly when it adds
`u` to the open-file set, and none otherwise. -/
theorem didOpen_count (env : ClientEnv) (root fp : String) (st : ClientState) (u : String) :
    didOpenCount (didOpen env root fp st).2 u =
      if u ∈ (didOpen env root fp st).1.openFiles ∧ u ∉ st.openFiles then 1 else 0 := by
  simp only [didOpen]
  split
  · simp [didOpenCount]
  · next hmem =>
    rcases hr : env.readFile (pathResolve root fp) with _ | content
    · simp [didOpenCount]
    · simp only [didOpenCount, setAdd, if_neg hmem]
      by_cases hu : u = "file://" ++ pathResolve root fp
      · subst hu
        rw [if_pos ⟨List.mem_cons_self _ _, hmem⟩]
        simp [isOpenNoteFor]
      · have hbeq : (("file://" ++ pathResolve root fp) == u) = false :=
          beq_eq_false_iff_ne.mpr fun h => hu h.symm
        rw [if_neg (fun h => (List.mem_cons.mp h.1).elim (fun h1 => hu h1) (fun h1 => h.2 h1))]
        simp [List.filter, isOpenNoteFor, hbeq]

/-- A query operation only grows the open-file set. -/
theorem runQuery_mono (env : ClientEnv) (root : String) (k : QueryKind)
    (fp : String) (l c : JsNum) (st : ClientState) :
    st.openFiles ⊆ (runQuery env root k fp l c st).1.openFiles := by
  unfold runQuery
  rcases hE : ensureInitialized env st with ⟨st1, ms1, r⟩
  have hopen : st1.openFiles = st.openFiles := by
    have h := ensure_openFiles env st
    rw [hE] at h
    exact h
  cases r with
  | error e =>
    intro a ha
    simpa [hopen] using ha
  | ok u =>
    cases u
    dsimp only
    intro a ha
    exact didOpen_mono env root fp st1 (hopen ▸ ha)

/-- A query operation sends one open-notification for `u` exactly when it
adds `u` to the open-file set. -/
theorem runQuery_count (env : ClientEnv) (root : String) (k : QueryKind)
    (fp : String) (l c : JsNum) (st : ClientState) (u : String) :
    didOpenCount (runQuery env root k fp l c st).2.1 u =
      if u ∈ (runQuery env root k fp l c st).1.openFiles ∧ u ∉ st.openFiles then 1 else 0 := by
  unfold runQuery
  rcases hE : ensureInitialized env st with ⟨st1, ms1, r⟩
  have hopen : st1.openFiles = st.openFiles := by
    have h := ensure_openFiles env st
    rw [hE] at h
    exact h
  have hcnt : didOpenCount ms1 u = 0 := by
    have h := ensure_count env st u
    rw [hE] at h
    exact h
  cases r with
  | error e =>
    dsimp only
    rw [hcnt, if_neg]
    rintro ⟨h1, h2⟩
    exact h2 (hopen ▸ h1)
  | ok uu =>
    cases uu
    dsimp only
    rw [didOpenCount_append, didOpenCount_append, hcnt, didOpenCount_query,
      didOpen_count env root fp st1 u, hopen]
    omega

/-- A trace of query operations only grows the open-file set. -/
theorem runOps_mono (env : ClientEnv) (root : String) : ∀ (ops : List Op) (st : ClientState),
    st.openFiles ⊆ (runOps env root ops st).1.openFiles
  | [], st => fun a h => h
  | op :: ops, st => by
    unfold runOps
    rcases hQ : runQuery env root op.kind op.filePath op.line op.character st with ⟨st1, ms1, r⟩
    dsimp only
    intro a ha
    apply runOps_mono env root ops st1
    have h := runQuery_mono env root op.kind op.filePath op.line op.character st
    rw [hQ] at h
    exact h ha

/-- Over a trace, the number of open-notifications for `u` is one exactly
when `u` was newly added to the open-file set, and zero otherwise. -/
theorem runOps_count (env : ClientEnv) (root : String) : ∀ (ops : List Op) (st : ClientState) (u : String),
    didOpenCount (runOps env root ops st).2 u =
      if u ∈ (runOps env root ops st).1.openFiles ∧ u ∉ st.openFiles then 1 else 0
  | [], st, u => by
    unfold runOps
    dsimp only
    rw [if_neg (fun h => h.2 h.1)]
    rfl
  | op :: ops, st, u => by
    unfold runOps
    rcases hQ : runQuery env root op.kind op.filePath op.line op.character st with ⟨st1, ms1, r⟩
    dsimp only
    rw [didOpenCount_append]
    have h1 : didOpenCount ms1 u = if u ∈ st1.openFiles ∧ u ∉ st.openFiles then 1 else 0 := by
      have h := runQuery_count env root op.kind op.filePath op.line op.character st u
      rw [hQ] at h
      exact h
    have h2 := runOps_count env root ops st1 u
    have hAB : u ∈ st.openFiles → u ∈ st1.openFiles := by
      intro ha
      have h := runQuery_mono env root op.kind op.filePath op.line op.character st
      rw [hQ] at h
      exact h ha
    have hBC : u ∈ st1.openFiles → u ∈ (runOps env root ops st1).1.openFiles :=
      fun hb => runOps_mono env root ops st1 hb
    rw [h1, h2]
    by_cases hA : u ∈ st.openFiles
    · simp [hA, hAB hA, hBC (hAB hA)]
    · by_cases hB : u ∈ st1.openFiles
      · simp [hA, hB, hBC hB]
      · by_cases hC : u ∈ (runOps env root ops st1).1.openFiles
        · simp [hA, hB, hC]
        · simp [hA, hB, hC]

/-- With a succeeding handshake and a readable file, a query leaves the file
URI in the open-file set. -/
theorem runQuery_opens (env : ClientEnv) (root : String) (k : QueryKind)
    (fp : String) (l c : JsNum) (st : ClientState) (content : String)
    (hh : env.handshake = .ok ())
    (hr : env.readFile (pathResolve root fp) = some content) :
    ("file://" ++ pathResolve root fp) ∈ (runQuery env root k fp l c st).1.openFiles := by
  unfold runQuery
  rcases hE : ensureInitialized env st with ⟨st1, ms1, r⟩
  have hok : r = .ok () := by
    have h := ensure_ok env st hh
    rw [hE] at h
    exact h
  subst hok
  dsimp only
  simp only [didOpen]
  split
  · next hmem => exact hmem
  · next hmem =>
    rw [hr]
    simp only [setAdd, if_neg hmem]
    exact List.mem_cons_self _ _

/-- Claim C4, counterexample: when the file read fails, two query operations
against the same file send ZERO open-notifications, not exactly one — the
read failure skips the notification and never marks the file open. -/
theorem c4_counterexample :
    didOpenCount (runOps envNoRead "/r"
        [⟨.defn, "a.ts", .int 0, .int 0⟩, ⟨.refs, "a.ts", .int 1, .int 1⟩] initialState).2
      ("file://" ++ pathResolve "/r" "a.ts") = 0 := by decide

/-- Claim C4, amended: over any trace of query operations from process start,
at most one open-notification is sent per URI; a URI is in the OpenFileSet
iff exactly one notification for it was sent (so membership only ever comes
from a sent notification); the set only grows; and when the handshake and
the file read succeed, two queries against the same file send exactly one
open-notification for it. -/
theorem c4_amended (env : ClientEnv) (root fp : String) (ops : List Op)
    (k1 k2 : QueryKind) (l1 c1 l2 c2 : JsNum) (content : String) :
    (∀ u, didOpenCount (runOps env root ops initialState).2 u ≤ 1)
    ∧ (∀ u, u ∈ (runOps env root ops initialState).1.openFiles ↔
          didOpenCount (runOps env root ops initialState).2 u = 1)
    ∧ (∀ st, st.openFiles ⊆ (runOps env root ops st).1.openFiles)
    ∧ (env.handshake = .ok () → env.readFile (pathResolve root fp) = some content →
        didOpenCount (runOps env root [⟨k1, fp, l1, c1⟩, ⟨k2, fp, l2, c2⟩] initialState).2
          ("file://" ++ pathResolve root fp) = 1) := by
  refine ⟨?_, ?_, ?_, ?_⟩
  · intro u
    rw [runOps_count]
    split <;> omega
  · intro u
    rw [runOps_count]
    constructor
    · intro h
      rw [if_pos ⟨h, by simp [initialState]⟩]
    · intro h
      by_contra hmem
      rw [if_neg (fun hh => hmem hh.1)] at h
      exact absurd h (by omega)
  · intro st
    exact runOps_mono env root ops st
  · intro hh hr
    rw [runOps_count]
    rw [if_pos]
    refine ⟨?_, by simp [initialState]⟩
    have h1 : ("file://" ++ pathResolve root fp) ∈
        (runQuery env root k1 fp l1 c1 initialState).1.openFiles :=
      runQuery_opens env root k1 fp l1 c1 initialState content hh hr
    unfold runOps
    rcases hQ : runQuery env root k1 fp l1 c1 initialState with ⟨st1, ms1, r⟩
    dsimp only
    rw [hQ] at h1
    exact runOps_mono env root [⟨k2, fp, l2, c2⟩] st1 h1

/-- Claim C4, witness: two concrete queries, one notification. -/
theorem c4_amended_witness :
    didOpenCount (runOps envOk "/r"
        [⟨.defn, "a.ts", .int 0, .int 0⟩, ⟨.refs, "a.ts", .int 1, .int 1⟩] initialState).2
      ("file://" ++ pathResolve "/r" "a.ts") = 1 :=
  (c4_amended envOk "/r" "a.ts" [] QueryKind.defn QueryKind.refs
    (.int 0) (.int 0) (.int 1) (.int 1) "let x = 1").2.2.2 rfl rfl

/-- A non-empty query occurring at `p` fits inside the line. -/
theorem occursAt_bound (s q : List Char) (p : Nat) (hq : q ≠ [])
    (h : occursAt s q p = true) : p + q.length ≤ s.length := by
  unfold occursAt at h
  rw [beq_iff_eq] at h
  have hlen := congrArg List.length h
  simp only [List.length_take, List.length_drop] at hlen
  have hql : 0 < q.length := List.length_pos.mpr hq
  omega

/-- Every character of a query occurring in a line is a character of the
line. -/
theorem occursAt_subset (s q : List Char) (p : Nat) (h : occursAt s q p = true) :
    ∀ ch ∈ q, ch ∈ s := by
  unfold occursAt at h
  rw [beq_iff_eq] at h
  intro ch hch
  rw [← h] at hch
  exact List.drop_subset _ _ (List.take_subset _ _ hch)

/-- Soundness of `indexOfFrom`: a hit is a real occurrence at or after the
clamped start. -/
theorem indexOfFrom_some (s q : List Char) (f i : Nat)
    (h : indexOfFrom s q f = some i) :
    min f s.length ≤ i ∧ occursAt s q i = true ∧ i ≤ s.length := by
  unfold indexOfFrom at h
  have hmem : i ∈ (List.range (s.length + 1)).filter
      (fun p => decide (min f s.length ≤ p) && occursAt s q p) :=
    List.mem_of_mem_head? (Option.mem_def.mpr h)
  rw [List.mem_filter] at hmem
  obtain ⟨hrange, hpred⟩ := hmem
  rw [Bool.and_eq_true, decide_eq_true_eq] at hpred
  rw [List.mem_range] at hrange
  exact ⟨hpred.1, hpred.2, by omega⟩

/-- Minimality of `indexOfFrom`: a hit is the leftmost occurrence at or
after the clamped start. -/
theorem indexOfFrom_least (s q : List Char) (f i j : Nat)
    (h : indexOfFrom s q f = some i)
    (hj1 : min f s.length ≤ j) (hj2 : occursAt s q j = true) (hj3 : j ≤ s.length) :
    i ≤ j := by
  unfold indexOfFrom at h
  have hjmem : j ∈ (List.range (s.length + 1)).filter
      (fun p => decide (min f s.length ≤ p) && occursAt s q p) := by
    rw [List.mem_filter, List.mem_range]
    exact ⟨by omega, by rw [Bool.and_eq_true, decide_eq_true_eq]; exact ⟨hj1, hj2⟩⟩
  have hpw : ((List.range (s.length + 1)).filter
      (fun p => decide (min f s.length ≤ p) && occursAt s q p)).Pairwise (· < ·) :=
    (List.pairwise_lt_range _).filter _
  rcases hl : (List.range (s.length + 1)).filter
      (fun p => decide (min f s.length ≤ p) && occursAt s q p) with _ | ⟨a, t⟩
  · rw [hl] at hjmem
    exact absurd hjmem (List.not_mem_nil j)
  · rw [hl] at h hjmem hpw
    injection h with h
    subst h
    rcases List.mem_cons.mp hjmem with h | h
    · omega
    · have := (List.pairwise_cons.mp hpw).1 j h
      omega

/-- Completeness of `indexOfFrom`: a miss means no occurrence at or after
the clamped start. -/
theorem indexOfFrom_none (s q : List Char) (f j : Nat)
    (h : indexOfFrom s q f = none)
    (hj1 : min f s.length ≤ j) (hj3 : j ≤ s.length) :
    occursAt s q j = false := by
  unfold indexOfFrom at h
  rw [List.head?_eq_none_iff, List.filter_eq_nil_iff] at h
  by_contra hocc
  rw [Bool.not_eq_false] at hocc
  exact h j (List.mem_range.mpr (by omega))
    (by rw [Bool.and_eq_true, decide_eq_true_eq]; exact ⟨hj1, hocc⟩)

/-- The search loop, started at `f` with enough fuel, reports exactly the
occurrence positions at or after `f`. -/
theorem searchLineAux_mem (line q : List Char) (hq : q ≠ []) :
    ∀ (fuel f : Nat), f ≤ line.length → line.length + 1 ≤ fuel + f →
      ∀ p, p ∈ searchLineAux line q (indexOfFrom line q f) fuel ↔
        (f ≤ p ∧ occursAt line q p = true)
  | 0, f, hf, hfuel, p => absurd hf (by omega)
  | fuel + 1, f, hf, hfuel, p => by
    have hminf : min f line.length = f := Nat.min_eq_left hf
    rcases hI : indexOfFrom line q f with _ | i
    · simp only [searchLineAux]
      constructor
      · intro hmem
        exact absurd hmem (List.not_mem_nil p)
      · rintro ⟨h1, h2⟩
        have hb := occursAt_bound line q p hq h2
        have hfalse := indexOfFrom_none line q f p hI (by omega) (by omega)
        rw [h2] at hfalse
        cases hfalse
    · obtain ⟨hge, hocc, hle⟩ := indexOfFrom_some line q f i hI
      rw [hminf] at hge
      have hb := occursAt_bound line q i hq hocc
      have hql : 0 < q.length := List.length_pos.mpr hq
      simp only [searchLineAux, List.mem_cons]
      have IH := searchLineAux_mem line q hq fuel (i + 1) (by omega) (by omega) p
      rw [IH]
      constructor
      · rintro (rfl | ⟨h1, h2⟩)
        · exact ⟨hge, hocc⟩
        · exact ⟨by omega, h2⟩
      · rintro ⟨h1, h2⟩
        by_cases hpi : p = i
        · exact Or.inl hpi
        · refine Or.inr ⟨?_, h2⟩
          have hleast := indexOfFrom_least line q f i p hI (by omega) h2
            (by have := occursAt_bound line q p hq h2; omega)
          omega

/-- For a non-empty query, `searchLine` reports exactly the occurrence
positions — including overlapping and adjacent ones. -/
theorem searchLine_mem (line q : List Char) (hq : q ≠ []) (p : Nat) :
    p ∈ searchLine line q ↔ occursAt line q p = true := by
  unfold searchLine
  rw [searchLineAux_mem line q hq (line.length + 1) 0 (by omega) (by omega) p]
  simp

/-- Membership in the per-line loop over all split lines. -/
theorem searchLines_mem (q : List Char) : ∀ (ls : List (List Char)) (base : Nat) (m : SearchMatch),
    m ∈ searchLines q base ls ↔
      ∃ j line, ls.get? j = some line ∧ m.line = base + j
        ∧ m.character ∈ searchLine line q ∧ m.text = trimL line
  | [], base, m => by simp [searchLines]
  | l :: ls, base, m => by
    obtain ⟨ml, mc, mt⟩ := m
    simp only [searchLines, List.mem_append, List.mem_map]
    rw [searchLines_mem q ls (base + 1) ⟨ml, mc, mt⟩]
    dsimp only
    constructor
    · rintro (⟨p, hp, heq⟩ | ⟨j, line, hj, hline, hchar, htext⟩)
      · cases heq
        exact ⟨0, l, rfl, by omega, hp, rfl⟩
      · exact ⟨j + 1, line, by simpa using hj, by omega, hchar, htext⟩
    · rintro ⟨j, line, hj, hline, hchar, htext⟩
      cases j with
      | zero =>
        left
        have hl : l = line := by simpa using hj
        subst hl
        subst htext
        exact ⟨mc, hchar, by simp [hline]⟩
      | succ j =>
        right
        exact ⟨j, line, by simpa using hj, by omega, hchar, htext⟩

/-- Claim C6: for a non-empty query, `search_in_file` reports a match at
line `i`, character `p` exactly when the query occurs at position `p` of
line `i` of the split file content — so overlapping and adjacent matches are
all reported (the search resumes one character past each match start); and
concretely, for the line "aaa" and the query "aa" it reports exactly two
matches, at characters 0 and 1. -/
theorem c6_search_overlap (content q : List Char) (hq : q ≠ []) :
    (∀ (i : Nat) (line : List Char) (p : Nat),
        (splitOnCharL '\n' content).get? i = some line →
        ((⟨i, p, trimL line⟩ : SearchMatch) ∈ handleSearchInFile content q ↔
          occursAt line q p = true))
    ∧ handleSearchInFile "aaa".data "aa".data =
        [⟨0, 0, "aaa".data⟩, ⟨0, 1, "aaa".data⟩] := by
  constructor
  · intro i line p hget
    rw [handleSearchInFile, searchLines_mem]
    constructor
    · rintro ⟨j, line2, hj, hline, hchar, htext⟩
      have hline2 : i = 0 + j := hline
      have hij : j = i := by omega
      subst hij
      rw [hget] at hj
      injection hj with hj
      have hchar2 : p ∈ searchLine line q := by rw [hj]; exact hchar
      exact (searchLine_mem line q hq p).mp hchar2
    · intro hocc
      exact ⟨i, line, hget, (by omega : i = 0 + i),
        (searchLine_mem line q hq p).mpr hocc, rfl⟩
  · decide

/-- Claim C6, witness on the concrete "aaa"/"aa" instance. -/
theorem c6_search_overlap_witness :
    ((⟨0, 1, "aaa".data⟩ : SearchMatch) ∈ handleSearchInFile "aaa".data "aa".data ↔
      occursAt "aaa".data "aa".data 1 = true)
    ∧ handleSearchInFile "aaa".data "aa".data =
        [⟨0, 0, "aaa".data⟩, ⟨0, 1, "aaa".data⟩] := by
  have h := c6_search_overlap "aaa".data "aa".data (by decide)
  exact ⟨h.1 0 "aaa".data 1 (by decide), h.2⟩

/-- Splitting never yields the empty list of segments. -/
theorem splitOnCharL_ne_nil (sep : Char) : ∀ (s : List Char), splitOnCharL sep s ≠ []
  | [] => by simp [splitOnCharL]
  | c :: cs => by
    simp only [splitOnCharL]
    cases h : splitOnCharL sep cs with
    | nil => simp
    | cons l ls =>
      dsimp only
      split <;> simp

/-- No segment produced by the split contains the separator. -/
theorem splitOnCharL_not_mem (sep : Char) : ∀ (s l : List Char),
    l ∈ splitOnCharL sep s → sep ∉ l
  | [], l, hl => by
    simp [splitOnCharL] at hl
    subst hl
    simp
  | c :: cs, l, hl => by
    simp only [splitOnCharL] at hl
    cases h : splitOnCharL sep cs with
    | nil => exact absurd h (splitOnCharL_ne_nil sep cs)
    | cons l1 ls =>
      rw [h] at hl
      dsimp only at hl
      by_cases hc : c = sep
      · rw [if_pos hc] at hl
        rcases List.mem_cons.mp hl with rfl | hl2
        · simp
        · exact splitOnCharL_not_mem sep cs l (by rw [h]; exact hl2)
      · rw [if_neg hc] at hl
        rcases List.mem_cons.mp hl with rfl | hl2
        · intro hmem
          rcases List.mem_cons.mp hmem with rfl | hmem2
          · exact hc rfl
          · exact splitOnCharL_not_mem sep cs l1
              (by rw [h]; exact List.mem_cons_self l1 ls) hmem2
        · exact splitOnCharL_not_mem sep cs l
            (by rw [h]; exact List.mem_cons_of_mem l1 hl2)

/-- The search loop started on a miss reports nothing. -/
theorem searchLineAux_none (line q : List Char) (fuel : Nat) :
    searchLineAux line q none fuel = [] := by
  cases fuel <;> rfl

/-- If no line has a match, the whole file has none. -/
theorem searchLines_nil (q : List Char) : ∀ (ls : List (List Char)) (base : Nat),
    (∀ l ∈ ls, searchLine l q = []) → searchLines q base ls = []
  | [], base, _ => rfl
  | l :: ls, base, h => by
    simp only [searchLines]
    rw [h l (List.mem_cons_self l ls), searchLines_nil q ls (base + 1)
      (fun l2 hl2 => h l2 (List.mem_cons_of_mem l hl2))]
    rfl

/-- Claim C10: a query containing a newline can never occur within a single
line (the content is split on newlines first), so `search_in_file` reports
zero matches for it, whatever the file content. -/
theorem c10_newline_query (content q : List Char) (h : '\n' ∈ q) :
    handleSearchInFile content q = [] := by
  unfold handleSearchInFile
  apply searchLines_nil
  intro l hl
  have hno : '\n' ∉ l := splitOnCharL_not_mem '\n' content l hl
  unfold searchLine
  rcases hI : indexOfFrom l q 0 with _ | i
  · exact searchLineAux_none l q (l.length + 1)
  · obtain ⟨_, hocc, _⟩ := indexOfFrom_some l q 0 i hI
    exact absurd (occursAt_subset l q i hocc '\n' h) hno

/-- Claim C10, witness on a concrete file and multi-line query. -/
theorem c10_newline_query_witness :
    handleSearchInFile "ab\ncd".data "b\nc".data = [] :=
  c10_newline_query "ab\ncd".data "b\nc".data (by decide)

end LspMcp
